import Mathlib

/-!
Shallow embedding of the tamper-evident event provenance chain of the
raspberry-pi-hw repository: the ProvenanceTracker (src/data/provenance.js),
the ProvenanceDatabase (src/data/database.js) and the ATECC608 signer
(the crypto device class bundled with database.js).

SQLite tables are modelled as Lean lists in insertion (rowid) order; the
SHA-256 hash is kept abstract as a function parameter H, since none of the
verified properties depend on the value of the hash, only on how the code
threads hashes through the chain.  Asynchronous JS calls that may throw
(signing, the two database writes) are modelled with explicit outcome
fields in a CreateEnv environment; a thrown error is an Except.error
carrying the database state left behind by the writes that did happen.
-/

namespace Provenance

/-- Image payload handed to the tracker by the camera collaborator. -/
structure ImageData where
  base64Data : String
  filepath : String
deriving DecidableEq

/-- Result object of ATECC608.signData (hardwareSign / softwareSign). -/
structure SignResult where
  signature : String
  algorithm : String
  keyId : String
  hardware : Bool
deriving DecidableEq

/-- The signatureInfo object stored with an event record: either the full
signData result, or the marker object written by createUnsignedRecord. -/
inductive SignatureInfo where
  | signed (signature algorithm keyId : String) (hardware : Bool)
  | unsigned (reason : String)
deriving DecidableEq

/-- JS truthiness of signatureInfo.hardware: the unsigned marker object has
no hardware field, which reads as falsy. -/
def SignatureInfo.hardwareTag : SignatureInfo → Bool
  | .signed _ _ _ hw => hw
  | .unsigned _ => false

/-- One row of the events table. -/
structure EventRecord where
  event_id : String
  timestamp : String
  rtc_timestamp : String
  event_type : String
  trigger_data : String
  image_path : String
  image_hash : String
  signature : Option String
  signature_info : SignatureInfo
  verification_status : Bool
deriving DecidableEq

/-- One row of the provenance_chain table. -/
structure ChainLink where
  event_id : String
  previous_hash : Option String
  current_hash : String
  chain_position : Nat
deriving DecidableEq

/-- The two tables of the provenance database, in insertion order. -/
structure DBState where
  events : List EventRecord
  chain : List ChainLink
deriving DecidableEq

/-- One issue object pushed by verifyProvenanceChain. -/
structure Issue where
  position : Nat
  issue : String
  expected : String
  actual : Option String
deriving DecidableEq

/-- The object resolved by verifyProvenanceChain. -/
structure VerifyChainResult where
  isValid : Bool
  totalEvents : Nat
  issues : List Issue
deriving DecidableEq

/-- JSON encoding of a string value. -/
def jstr (s : String) : String := "\"" ++ s ++ "\""

/-- JSON encoding of a nullable string value. -/
def jopt : Option String → String
  | none => "null"
  | some s => jstr s

/-- The event data object assembled by createProvenanceRecord before
signing; triggerData is carried in its serialized JSON form. -/
structure EventData where
  eventId : String
  timestamp : String
  rtcTimestamp : String
  eventType : String
  triggerData : String
  imageHash : String
  previousHash : Option String
deriving DecidableEq

/-- JSON.stringify of the event data object, with the key insertion order
used by createProvenanceRecord. -/
def stringifyEventData (e : EventData) : String :=
  "\x7b\"eventId\":" ++ jstr e.eventId ++
  ",\"timestamp\":" ++ jstr e.timestamp ++
  ",\"rtcTimestamp\":" ++ jstr e.rtcTimestamp ++
  ",\"eventType\":" ++ jstr e.eventType ++
  ",\"triggerData\":" ++ e.triggerData ++
  ",\"imageHash\":" ++ jstr e.imageHash ++
  ",\"previousHash\":" ++ jopt e.previousHash ++ "\x7d"

/-- JSON.stringify of the spread object hashed by calculateEventHash: the
event data keys followed by the appended signature key. -/
def stringifyEventDataSigned (e : EventData) (sig : String) : String :=
  "\x7b\"eventId\":" ++ jstr e.eventId ++
  ",\"timestamp\":" ++ jstr e.timestamp ++
  ",\"rtcTimestamp\":" ++ jstr e.rtcTimestamp ++
  ",\"eventType\":" ++ jstr e.eventType ++
  ",\"triggerData\":" ++ e.triggerData ++
  ",\"imageHash\":" ++ jstr e.imageHash ++
  ",\"previousHash\":" ++ jopt e.previousHash ++
  ",\"signature\":" ++ jstr sig ++ "\x7d"

/-- ProvenanceTracker.calculateImageHash: SHA-256 (the parameter H) of the
base64 image data. -/
def calculateImageHash (H : String → String) (img : ImageData) : String :=
  H img.base64Data

/-- ProvenanceTracker.calculateEventHash: hash of the serialized event data
with the signature, or the fixed marker string when the signature is null. -/
def calculateEventHash (H : String → String) (e : EventData)
    (signature : Option String) : String :=
  H (stringifyEventDataSigned e (signature.getD "unsigned"))

/-- ProvenanceDatabase.logEvent: INSERT one row into events. -/
def logEvent (db : DBState) (r : EventRecord) : DBState :=
  ⟨db.events ++ [ r ], db.chain⟩

/-- The SELECT MAX(chain_position) query of addToProvenanceChain; the NULL
of an empty table reads as 0 through the JS expression row.max_pos || 0. -/
def maxChainPosition (chain : List ChainLink) : Nat :=
  chain.foldl (fun m l => max m l.chain_position) 0

/-- ProvenanceDatabase.addToProvenanceChain: position is MAX + 1, then one
row is inserted into provenance_chain. -/
def addToProvenanceChain (db : DBState) (eid : String) (prev : Option String)
    (cur : String) : DBState :=
  ⟨db.events, db.chain ++ [ ⟨eid, prev, cur, maxChainPosition db.chain + 1⟩ ]⟩

/-- A row of the LEFT JOIN of events with provenance_chain: the chain
columns are null when the event has no link. -/
structure EventRow where
  record : EventRecord
  current_hash : Option String
  previous_hash : Option String
  chain_position : Option Nat
deriving DecidableEq

/-- The LEFT JOIN on event_id, taking the first matching link. -/
def joinChain (db : DBState) (e : EventRecord) : EventRow :=
  match db.chain.find? (fun l => l.event_id == e.event_id) with
  | none => ⟨e, none, none, none⟩
  | some l => ⟨e, some l.current_hash, l.previous_hash, some l.chain_position⟩

/-- ProvenanceDatabase.getEvents: joined rows ordered by created_at DESC
(newest insertion first), then OFFSET and LIMIT. -/
def getEvents (db : DBState) (limit offset : Nat) : List EventRow :=
  ((db.events.reverse.drop offset).take limit).map (joinChain db)

/-- ProvenanceDatabase.getEventById: the joined row of one event, or null. -/
def getEventById (db : DBState) (eid : String) : Option EventRow :=
  (db.events.find? (fun e => e.event_id == eid)).map (joinChain db)

/-- The issues collected by the verification loop of verifyProvenanceChain
from index 1 on, with prev standing for rows[i-1]. -/
def issuesFrom (prev : ChainLink) : List ChainLink → List Issue
  | [] => []
  | b :: rest =>
    (if b.previous_hash ≠ some prev.current_hash then
      [ ⟨b.chain_position, "Hash chain broken", prev.current_hash, b.previous_hash⟩ ]
     else []) ++ issuesFrom b rest

/-- All issues of a row list, as collected by the loop for i = 1 .. len-1. -/
def chainIssues : List ChainLink → List Issue
  | [] => []
  | x :: l => issuesFrom x l

/-- The verification loop of verifyProvenanceChain, threading the isValid
flag and the issues array exactly as the JS for-loop does. -/
def verifyFold (prev : ChainLink) (rest : List ChainLink) (valid : Bool)
    (issues : List Issue) : Bool × List Issue :=
  match rest with
  | [] => (valid, issues)
  | b :: r =>
    if b.previous_hash ≠ some prev.current_hash then
      verifyFold b r false
        (issues ++ [ ⟨b.chain_position, "Hash chain broken", prev.current_hash, b.previous_hash⟩ ])
    else
      verifyFold b r valid issues

/-- Insertion step of the ORDER BY chain_position ASC sort. -/
def insertByPos (l : ChainLink) : List ChainLink → List ChainLink
  | [] => [ l ]
  | x :: xs =>
    if l.chain_position ≤ x.chain_position then l :: x :: xs
    else x :: insertByPos l xs

/-- ORDER BY chain_position ASC of the SELECT in verifyProvenanceChain. -/
def sortByPos (l : List ChainLink) : List ChainLink :=
  l.foldr insertByPos []

/-- ProvenanceDatabase.verifyProvenanceChain: read all links in position
order, walk adjacent pairs, return the flag, the row count, and the issue
array.  The model is a pure function of the database state: the SQL is a
single read and nothing is mutated. -/
def verifyProvenanceChain (db : DBState) : VerifyChainResult :=
  match sortByPos db.chain with
  | [] => ⟨true, 0, []⟩
  | x :: l =>
    let vi := verifyFold x l true []
    ⟨vi.1, (x :: l).length, vi.2⟩

/-- ATECC608.hardwareVerify: a placeholder that returns true. -/
def hardwareVerify (_data : String) (_info : SignatureInfo) : Bool := true

/-- ATECC608.softwareVerify: ignores both the data and the stored signature
and compares one Math.random draw (the parameter r) against 0.1. -/
def softwareVerify (_data : String) (_info : SignatureInfo) (r : ℚ) : Bool :=
  decide (r > 1/10)

/-- Which verification routine a call ends up in. -/
inductive VerifyRoutine where
  | hardware
  | software
deriving DecidableEq

/-- The dispatch condition of ATECC608.verifySignature: the hardware
routine runs only when signatureInfo.hardware is truthy AND the device
object reports itself initialized. -/
def selectedRoutine (info : SignatureInfo) (inited : Bool) : VerifyRoutine :=
  if info.hardwareTag && inited then .hardware else .software

/-- ATECC608.verifySignature. -/
def verifySignature (inited : Bool) (data : String) (info : SignatureInfo)
    (r : ℚ) : Bool :=
  match selectedRoutine info inited with
  | .hardware => hardwareVerify data info
  | .software => softwareVerify data info r

/-- ProvenanceTracker state: the lastHash cursor and the database. -/
structure TrackerState where
  lastHash : Option String
  db : DBState
deriving DecidableEq

/-- ProvenanceTracker.initialize: read getEvents(1, 0) and take the joined
current_hash of the first row; the cursor stays at the constructor value
null when there are no rows. -/
def initLastHash (db : DBState) : Option String :=
  match getEvents db 1 0 with
  | [] => none
  | row :: _ => row.current_hash

/-- The nondeterministic environment of one creation attempt: the fresh
uuid, the two timestamps, the signer outcome (none models a thrown signData
error), and whether each of the two database writes succeeds. -/
structure CreateEnv where
  eventId : String
  timestamp : String
  rtcTimestamp : String
  signOutcome : Option SignResult
  logEventOk : Bool
  chainAppendOk : Bool
deriving DecidableEq

/-- The object returned to the caller of createProvenanceRecord, keeping
the fields the claims are about. -/
structure CreateResult where
  eventId : String
  currentHash : String
  signed : Bool
  record : EventRecord
deriving DecidableEq

/-- The try block of createProvenanceRecord.  An Except.error carries the
tracker state at the point the error was thrown: the event row is already
inserted when the chain append is the step that fails, and the cursor is
never advanced on failure. -/
def createSignedAttempt (H : String → String) (st : TrackerState)
    (eventType triggerData : String) (img : ImageData) (env : CreateEnv) :
    Except TrackerState (TrackerState × CreateResult) :=
  match env.signOutcome with
  | none => .error st
  | some si =>
    let imageHash := calculateImageHash H img
    let eventData : EventData :=
      ⟨env.eventId, env.timestamp, env.rtcTimestamp, eventType, triggerData,
       imageHash, st.lastHash⟩
    let currentHash := calculateEventHash H eventData (some si.signature)
    let dbRecord : EventRecord :=
      ⟨env.eventId, env.timestamp, env.rtcTimestamp, eventType, triggerData,
       img.filepath, imageHash, some si.signature,
       .signed si.signature si.algorithm si.keyId si.hardware, true⟩
    if env.logEventOk then
      let db1 := logEvent st.db dbRecord
      if env.chainAppendOk then
        let db2 := addToProvenanceChain db1 env.eventId st.lastHash currentHash
        .ok (⟨some currentHash, db2⟩, ⟨env.eventId, currentHash, true, dbRecord⟩)
      else .error ⟨st.lastHash, db1⟩
    else .error st

/-- ProvenanceTracker.createUnsignedRecord: same construction without a
signature, hashing with the fixed unsigned marker; its own catch rethrows,
modelled as Except.error. -/
def createUnsignedAttempt (H : String → String) (st : TrackerState)
    (eventType triggerData : String) (img : ImageData) (env : CreateEnv) :
    Except TrackerState (TrackerState × CreateResult) :=
  let imageHash := calculateImageHash H img
  let eventData : EventData :=
    ⟨env.eventId, env.timestamp, env.rtcTimestamp, eventType, triggerData,
     imageHash, st.lastHash⟩
  let currentHash := calculateEventHash H eventData none
  let dbRecord : EventRecord :=
    ⟨env.eventId, env.timestamp, env.rtcTimestamp, eventType, triggerData,
     img.filepath, imageHash, none, .unsigned "Crypto device unavailable", false⟩
  if env.logEventOk then
    let db1 := logEvent st.db dbRecord
    if env.chainAppendOk then
      let db2 := addToProvenanceChain db1 env.eventId st.lastHash currentHash
      .ok (⟨some currentHash, db2⟩, ⟨env.eventId, currentHash, false, dbRecord⟩)
    else .error ⟨st.lastHash, db1⟩
  else .error st

/-- ProvenanceTracker.createProvenanceRecord: on any error in the signed
attempt the catch block falls back to createUnsignedRecord with a fresh
environment (new uuid and timestamps). -/
def createProvenanceRecord (H : String → String) (st : TrackerState)
    (eventType triggerData : String) (img : ImageData) (env1 env2 : CreateEnv) :
    Except TrackerState (TrackerState × CreateResult) :=
  match createSignedAttempt H st eventType triggerData img env1 with
  | .ok r => .ok r
  | .error st1 => createUnsignedAttempt H st1 eventType triggerData img env2

/-- One external trigger together with its nondeterministic environment. -/
structure CreateCall where
  eventType : String
  triggerData : String
  img : ImageData
  env1 : CreateEnv
  env2 : CreateEnv
deriving DecidableEq

/-- The tracker state after one createProvenanceRecord call; the caller
keeps running whether the call resolved or threw. -/
def stepCreate (H : String → String) (st : TrackerState) (c : CreateCall) :
    TrackerState :=
  match createProvenanceRecord H st c.eventType c.triggerData c.img c.env1 c.env2 with
  | .ok (st1, _) => st1
  | .error st1 => st1

/-- A sequence of createProvenanceRecord calls. -/
def runCreates (H : String → String) (st : TrackerState)
    (cs : List CreateCall) : TrackerState :=
  cs.foldl (stepCreate H) st

/-- The object returned by ProvenanceTracker.verifyEvent. -/
structure VerifyEventResult where
  valid : Bool
  reason : Option String
  eventRow : Option EventRow
  signatureInfo : Option SignatureInfo
deriving DecidableEq

/-- ProvenanceTracker.verifyEvent: not-found and unsigned events resolve to
a result object (never a thrown error); a signed event reconstructs the
signable payload from the stored columns and calls verifySignature. -/
def verifyEvent (st : TrackerState) (eventId : String) (inited : Bool)
    (r : ℚ) : VerifyEventResult :=
  match getEventById st.db eventId with
  | none => ⟨false, some "Event not found", none, none⟩
  | some row =>
    match row.record.signature with
    | none => ⟨false, some "Event not signed", some row, none⟩
    | some _ =>
      let originalData : EventData :=
        ⟨row.record.event_id, row.record.timestamp, row.record.rtc_timestamp,
         row.record.event_type, row.record.trigger_data, row.record.image_hash,
         row.previous_hash⟩
      let isValid := verifySignature inited (stringifyEventData originalData)
        row.record.signature_info r
      ⟨isValid, none, some row, some row.record.signature_info⟩

/-- The empty tracker: null cursor, empty tables. -/
def st0 : TrackerState := ⟨none, ⟨[], []⟩⟩

/-- Chain well-formedness: each link carries as previous_hash the argument
hash, starting from the given genesis value. -/
def goodChain : List ChainLink → Option String → Bool
  | [], _ => true
  | l :: ls, prev => decide (l.previous_hash = prev) && goodChain ls (some l.current_hash)

/-- Positions are exactly k, k+1, ... in list order. -/
def positionsFrom : List ChainLink → Nat → Bool
  | [], _ => true
  | l :: ls, k => decide (l.chain_position = k) && positionsFrom ls (k + 1)

/-- Positions are strictly increasing, all above p. -/
def ascFrom (p : Nat) : List ChainLink → Bool
  | [] => true
  | x :: xs => decide (p < x.chain_position) && ascFrom x.chain_position xs

/-- The current_hash of the last link, with a default for the empty list. -/
def tailHashA : List ChainLink → Option String → Option String
  | [], acc => acc
  | l :: ls, _ => tailHashA ls (some l.current_hash)

/-- The last link of a list, with a default. -/
def lastD (d : ChainLink) : List ChainLink → ChainLink
  | [] => d
  | x :: xs => lastD x xs

/-- A creation call whose first attempt encounters no injected failure. -/
def goodCall (c : CreateCall) : Bool :=
  c.env1.signOutcome.isSome && c.env1.logEventOk && c.env1.chainAppendOk

/-- Whether a createProvenanceRecord call resolved rather than threw. -/
def isOkE (e : Except TrackerState (TrackerState × CreateResult)) : Bool :=
  match e with
  | .ok _ => true
  | .error _ => false

/-- Following the spec words for Chain Store tail_hash: the current_hash of
the highest-position link, or absent if the store is empty. -/
def spec_tailHash (db : DBState) : Option String :=
  ((sortByPos db.chain).getLast?).map (fun l => l.current_hash)

/-- Following the spec words for position contiguity: the stored positions,
in position order, are exactly 1 .. n. -/
def spec_contiguousB (chain : List ChainLink) : Bool :=
  positionsFrom (sortByPos chain) 1

/-- Invariant maintained by failure-free record creation: the chain links
back correctly from the null genesis, the cursor equals the tail hash, and
positions are contiguous from 1. -/
def TrackerInv (st : TrackerState) : Prop :=
  goodChain st.db.chain none = true ∧
  st.lastHash = tailHashA st.db.chain none ∧
  positionsFrom st.db.chain 1 = true

/-- A concrete hash function instance for witnesses: any function of the
serialized payload is admissible, the claims hold for all of them. -/
def hConst : String → String := fun _ => "h0"

/-- A concrete captured image. -/
def sampleImg : ImageData := ⟨"imgbytes", "captures/img.jpg"⟩

/-- A concrete successful signer outcome. -/
def sampleSign : SignResult := ⟨"sigbytes", "ECDSA-SHA256", "ATECC608-SLOT0", true⟩

/-- A failure-free first creation call. -/
def wCall1 : CreateCall :=
  ⟨"motion_detection", "\x7b\x7d", sampleImg,
   ⟨"id1", "T1", "R1", some sampleSign, true, true⟩,
   ⟨"id1u", "T1u", "R1u", none, true, true⟩⟩

/-- A failure-free second creation call. -/
def wCall2 : CreateCall :=
  ⟨"manual_capture", "\x7b\x7d", sampleImg,
   ⟨"id2", "T2", "R2", some sampleSign, true, true⟩,
   ⟨"id2u", "T2u", "R2u", none, true, true⟩⟩

/-- A two-call failure-free history. -/
def wCalls : List CreateCall := [ wCall1, wCall2 ]

/-- A persisted unsigned event record used in counterexample stores. -/
def cexE1 : EventRecord :=
  ⟨"e1", "t1", "r1", "motion_detection", "\x7b\x7d", "p1", "ih1", none,
   .unsigned "Crypto device unavailable", false⟩

/-- A second persisted event record. -/
def cexE2 : EventRecord :=
  ⟨"e2", "t2", "r2", "manual_capture", "\x7b\x7d", "p2", "ih2", none,
   .unsigned "Crypto device unavailable", false⟩

/-- A valid two-link store. -/
def cexDb : DBState :=
  ⟨[ cexE1, cexE2 ], [ ⟨"e1", none, "A", 1⟩, ⟨"e2", some "A", "B", 2⟩ ]⟩

/-- The same store with one field of the second event record edited and no
hash recomputed. -/
def cexDbTampered : DBState :=
  ⟨[ cexE1, { cexE2 with image_hash := "EVIL" } ],
   [ ⟨"e1", none, "A", 1⟩, ⟨"e2", some "A", "B", 2⟩ ]⟩

/-- A store whose single link sits at position 2: no adjacency to violate,
but the positions are not contiguous from 1. -/
def gapDb : DBState := ⟨[], [ ⟨"e1", none, "A", 2⟩ ]⟩

/-- Environment of a creation attempt whose chain append fails after the
event row was written. -/
def c4env1 : CreateEnv := ⟨"evt-1", "T1", "R1", some sampleSign, true, false⟩

/-- Environment of the fallback attempt, whose writes succeed. -/
def c4env2 : CreateEnv := ⟨"evt-2", "T2", "R2", none, true, true⟩

/-- The trigger whose chain append fails on the first attempt. -/
def c4call : CreateCall := ⟨"motion_detection", "\x7b\x7d", sampleImg, c4env1, c4env2⟩

/-- The event record produced by the failure-free first call under hConst. -/
def wRec5 : EventRecord :=
  ⟨"id1", "T1", "R1", "motion_detection", "\x7b\x7d", "captures/img.jpg", "h0",
   some "sigbytes", .signed "sigbytes" "ECDSA-SHA256" "ATECC608-SLOT0" true, true⟩

/-- The tracker state after that call. -/
def wSt5 : TrackerState :=
  ⟨some "h0", ⟨[ wRec5 ], [ ⟨"id1", none, "h0", 1⟩ ]⟩⟩

/-- The value returned by that call. -/
def wRes5 : CreateResult := ⟨"id1", "h0", true, wRec5⟩

/-- A store holding one unsigned event, for the verifyEvent witness. -/
def wStU : TrackerState := ⟨none, ⟨[ cexE1 ], []⟩⟩

/-- A stored hardware-trust signature object. -/
def hwInfo : SignatureInfo := .signed "ab12" "ECDSA-SHA256" "ATECC608-SLOT0" true

/-- A well-formed store: events and links correspond 1:1 in order. -/
def wDb8 : DBState :=
  ⟨[ cexE1, cexE2 ], [ ⟨"e1", none, "A", 1⟩, ⟨"e2", some "A", "B", 2⟩ ]⟩

/-- A store whose newest event record is orphaned: present in the events
table, absent from the chain table. -/
def orphanDb : DBState := ⟨[ cexE1, cexE2 ], [ ⟨"e1", none, "h1", 1⟩ ]⟩

/-- Environment of a creation attempt whose signer fails totally. -/
def wEnvF : CreateEnv := ⟨"idf", "TF", "RF", none, true, true⟩

/-- Environment of a fallback attempt with working database writes. -/
def wEnvOk : CreateEnv := ⟨"idf2", "TF2", "RF2", none, true, true⟩

end Provenance

namespace Provenance

theorem issuesFrom_append (p : ChainLink) (u v : List ChainLink) :
    issuesFrom p (u ++ v) = issuesFrom p u ++ issuesFrom (lastD p u) v := by
  induction u generalizing p with
  | nil => simp [issuesFrom, lastD]
  | cons x xs ih => simp [issuesFrom, lastD, ih x, List.append_assoc]

theorem issuesFrom_nil_of_good (l : List ChainLink) :
    ∀ p : ChainLink, goodChain l (some p.current_hash) = true →
      issuesFrom p l = [] := by
  induction l with
  | nil => intro p _; rfl
  | cons b rest ih =>
    intro p h
    simp only [goodChain, Bool.and_eq_true, decide_eq_true_eq] at h
    simp [issuesFrom, h.1, ih b h.2]

theorem tailHashA_append (u v : List ChainLink) (acc : Option String) :
    tailHashA (u ++ v) acc = tailHashA v (tailHashA u acc) := by
  induction u generalizing acc with
  | nil => rfl
  | cons x xs ih => simp [tailHashA, ih]

theorem goodChain_append (u v : List ChainLink) (pr : Option String) :
    goodChain (u ++ v) pr = (goodChain u pr && goodChain v (tailHashA u pr)) := by
  induction u generalizing pr with
  | nil => simp [goodChain, tailHashA]
  | cons x xs ih => simp [goodChain, tailHashA, ih, Bool.and_assoc]

theorem chainIssues_nil_of_good (l : List ChainLink) (q : Option String)
    (h : goodChain l q = true) : chainIssues l = [] := by
  cases l with
  | nil => rfl
  | cons x rest =>
    simp only [goodChain, Bool.and_eq_true] at h
    exact issuesFrom_nil_of_good rest x h.2

theorem verifyFold_spec (l : List ChainLink) :
    ∀ (p : ChainLink) (v : Bool) (is : List Issue),
      verifyFold p l v is = (v && (issuesFrom p l).isEmpty, is ++ issuesFrom p l) := by
  induction l with
  | nil => intro p v is; simp [verifyFold, issuesFrom]
  | cons b r ih =>
    intro p v is
    by_cases hc : b.previous_hash = some p.current_hash
    · simp [verifyFold, issuesFrom, hc, ih]
    · simp [verifyFold, issuesFrom, hc, ih]

theorem sortByPos_cons (x : ChainLink) (xs : List ChainLink) :
    sortByPos (x :: xs) = insertByPos x (sortByPos xs) := rfl

theorem sortByPos_sorted_id (l : List ChainLink) :
    ∀ p, ascFrom p l = true → sortByPos l = l := by
  induction l with
  | nil => intro p _; rfl
  | cons x xs ih =>
    intro p h
    simp only [ascFrom, Bool.and_eq_true, decide_eq_true_eq] at h
    rw [sortByPos_cons, ih x.chain_position h.2]
    cases xs with
    | nil => rfl
    | cons y ys =>
      have hy : ascFrom x.chain_position (y :: ys) = true := h.2
      simp only [ascFrom, Bool.and_eq_true, decide_eq_true_eq] at hy
      simp [insertByPos, Nat.le_of_lt hy.1]

theorem positionsFrom_append (u v : List ChainLink) :
    ∀ k, positionsFrom u k = true → positionsFrom v (k + u.length) = true →
      positionsFrom (u ++ v) k = true := by
  induction u with
  | nil => intro k _ hv; simpa using hv
  | cons x xs ih =>
    intro k hu hv
    simp only [positionsFrom, Bool.and_eq_true, decide_eq_true_eq] at hu ⊢
    refine ⟨hu.1, ih (k + 1) hu.2 ?_⟩
    have harith : k + (x :: xs).length = k + 1 + xs.length := by
      simp; omega
    rw [harith] at hv
    exact hv

theorem foldlMax_of_positions (l : List ChainLink) :
    ∀ a, positionsFrom l (a + 1) = true →
      l.foldl (fun m x => max m x.chain_position) a = a + l.length := by
  induction l with
  | nil => intro a _; simp
  | cons x xs ih =>
    intro a h
    simp only [positionsFrom, Bool.and_eq_true, decide_eq_true_eq] at h
    have hmax : max a x.chain_position = a + 1 := by
      rw [h.1]; omega
    simp only [List.foldl_cons, hmax]
    rw [ih (a + 1) h.2]
    simp; omega

theorem ascFrom_of_positions (l : List ChainLink) :
    ∀ k p, positionsFrom l k = true → p < k → ascFrom p l = true := by
  induction l with
  | nil => intro k p _ _; rfl
  | cons x xs ih =>
    intro k p h hp
    simp only [positionsFrom, Bool.and_eq_true, decide_eq_true_eq] at h
    simp only [ascFrom, Bool.and_eq_true, decide_eq_true_eq]
    exact ⟨h.1 ▸ hp, ih (k + 1) x.chain_position h.2 (by omega)⟩

theorem lastD_append_single (w : List ChainLink) (d a : ChainLink) :
    lastD d (w ++ [ a ]) = a := by
  induction w generalizing d with
  | nil => rfl
  | cons x xs ih => simpa [lastD] using ih x

theorem verifyProvenanceChain_eq (db : DBState) :
    verifyProvenanceChain db =
      ⟨(chainIssues (sortByPos db.chain)).isEmpty,
       (sortByPos db.chain).length,
       chainIssues (sortByPos db.chain)⟩ := by
  unfold verifyProvenanceChain
  cases h : sortByPos db.chain with
  | nil => simp [chainIssues]
  | cons x l => simp [chainIssues, verifyFold_spec]

theorem verify_of_inv (db : DBState) (h1 : goodChain db.chain none = true)
    (h3 : positionsFrom db.chain 1 = true) :
    verifyProvenanceChain db = ⟨true, db.chain.length, []⟩ := by
  have hasc : ascFrom 0 db.chain = true := ascFrom_of_positions _ 1 0 h3 (by omega)
  have hs : sortByPos db.chain = db.chain := sortByPos_sorted_id _ 0 hasc
  have hiss : chainIssues db.chain = [] := chainIssues_nil_of_good _ none h1
  rw [verifyProvenanceChain_eq, hs, hiss]
  simp

end Provenance

namespace Provenance

theorem maxChainPosition_of_positions (chain : List ChainLink)
    (h : positionsFrom chain 1 = true) :
    maxChainPosition chain = chain.length := by
  have := foldlMax_of_positions chain 0 h
  simpa [maxChainPosition] using this

theorem stepCreate_good (H : String → String) (st : TrackerState) (c : CreateCall)
    (hg : goodCall c = true) (hi : TrackerInv st) :
    TrackerInv (stepCreate H st c) ∧
    (stepCreate H st c).db.chain.length = st.db.chain.length + 1 := by
  obtain ⟨h1, h2, h3⟩ := hi
  simp only [goodCall, Bool.and_eq_true] at hg
  obtain ⟨⟨hs, hl⟩, hc⟩ := hg
  obtain ⟨si, hsi⟩ := Option.isSome_iff_exists.mp hs
  have hmax : maxChainPosition st.db.chain = st.db.chain.length :=
    maxChainPosition_of_positions st.db.chain h3
  have hred : ∃ (ch : String) (ev : List EventRecord),
      stepCreate H st c =
        ⟨some ch, ⟨ev, st.db.chain ++
          [ ⟨c.env1.eventId, st.lastHash, ch, maxChainPosition st.db.chain + 1⟩ ]⟩⟩ :=
    ⟨calculateEventHash H
        ⟨c.env1.eventId, c.env1.timestamp, c.env1.rtcTimestamp, c.eventType,
         c.triggerData, calculateImageHash H c.img, st.lastHash⟩ (some si.signature),
     st.db.events ++
        [ ⟨c.env1.eventId, c.env1.timestamp, c.env1.rtcTimestamp, c.eventType,
           c.triggerData, c.img.filepath, calculateImageHash H c.img,
           some si.signature,
           .signed si.signature si.algorithm si.keyId si.hardware, true⟩ ],
     by
      simp [stepCreate, createProvenanceRecord, createSignedAttempt, hsi, hl, hc,
        logEvent, addToProvenanceChain]⟩
  obtain ⟨ch, ev, hred⟩ := hred
  rw [hred]
  refine ⟨⟨?_, ?_, ?_⟩, by simp⟩
  · rw [goodChain_append]
    simp [goodChain, h1, h2]
  · rw [tailHashA_append]
    simp [tailHashA]
  · apply positionsFrom_append _ _ 1 h3
    simp [positionsFrom, hmax]
    omega

theorem runCreates_inv (H : String → String) (cs : List CreateCall) :
    ∀ st, TrackerInv st → (∀ c ∈ cs, goodCall c = true) →
      TrackerInv (runCreates H st cs) ∧
      (runCreates H st cs).db.chain.length = st.db.chain.length + cs.length := by
  induction cs with
  | nil => intro st hst _; simpa [runCreates] using hst
  | cons c cs ih =>
    intro st hst hg
    have hc := hg c (by simp)
    have hstep := stepCreate_good H st c hc hst
    have hrest := ih (stepCreate H st c) hstep.1 (fun d hd => hg d (by simp [hd]))
    have hrun : runCreates H st (c :: cs) = runCreates H (stepCreate H st c) cs := rfl
    rw [hrun]
    refine ⟨hrest.1, ?_⟩
    rw [hrest.2, hstep.2]
    simp [List.length_cons]
    omega

/-- C1: starting from the empty store, any failure-free sequence of N
record creations yields a chain whose first link has null previous_hash
(goodChain from the null genesis) and position 1, whose every later link
points at the immediately preceding current_hash, whose positions are
exactly 1..N, and on which verifyProvenanceChain resolves with
isValid = true and an empty issue list. -/
theorem chain_construction_valid (H : String → String) (cs : List CreateCall)
    (hg : ∀ c ∈ cs, goodCall c = true) :
    positionsFrom (runCreates H st0 cs).db.chain 1 = true ∧
    (runCreates H st0 cs).db.chain.length = cs.length ∧
    goodChain (runCreates H st0 cs).db.chain none = true ∧
    verifyProvenanceChain (runCreates H st0 cs).db = ⟨true, cs.length, []⟩ := by
  have h0 : TrackerInv st0 := ⟨rfl, rfl, rfl⟩
  obtain ⟨⟨hgc, hlh, hpos⟩, hlen⟩ := runCreates_inv H cs st0 h0 hg
  have hlen2 : (runCreates H st0 cs).db.chain.length = cs.length := by
    simpa [st0] using hlen
  refine ⟨hpos, hlen2, hgc, ?_⟩
  rw [verify_of_inv _ hgc hpos, hlen2]

/-- Witness for C1 at a concrete failure-free two-call history. -/
theorem chain_construction_valid_witness :
    (∀ c ∈ wCalls, goodCall c = true) ∧
    verifyProvenanceChain (runCreates hConst st0 wCalls).db = ⟨true, 2, []⟩ :=
  ⟨by decide, (chain_construction_valid hConst wCalls (by decide)).2.2.2⟩

end Provenance

namespace Provenance

/-- Counterexample to C2: editing a single field of a persisted event
record, without recomputing any downstream hash, leaves
verifyProvenanceChain reporting zero issues and valid = true — not exactly
one issue. -/
theorem event_tamper_invisible_cex :
    verifyProvenanceChain cexDb = ⟨true, 2, []⟩ ∧
    cexDbTampered.events ≠ cexDb.events ∧
    verifyProvenanceChain cexDbTampered = ⟨true, 2, []⟩ := by decide

/-- C2 as amended: verifyProvenanceChain reads only the chain links, so
tampering confined to the event store is invisible to it (its result is
unchanged under any replacement of the events table); what it does detect
is an inconsistent hash inside the chain itself — replacing the
previous_hash of a non-genesis link of a valid position-sorted chain with a
wrong value produces exactly one issue, at that link's position, with
expected the prior link's current_hash and actual the wrong value. -/
theorem verify_chain_ignores_event_store :
    (∀ (evs evs' : List EventRecord) (ch : List ChainLink),
      verifyProvenanceChain ⟨evs, ch⟩ = verifyProvenanceChain ⟨evs', ch⟩) ∧
    (∀ (u v : List ChainLink) (a b : ChainLink) (bad : Option String),
      goodChain (u ++ a :: b :: v) none = true →
      ascFrom 0 (u ++ a :: ⟨b.event_id, bad, b.current_hash, b.chain_position⟩ :: v) = true →
      bad ≠ some a.current_hash →
      ∀ evs : List EventRecord,
        verifyProvenanceChain
            ⟨evs, u ++ a :: ⟨b.event_id, bad, b.current_hash, b.chain_position⟩ :: v⟩ =
          ⟨false,
           (u ++ a :: ⟨b.event_id, bad, b.current_hash, b.chain_position⟩ :: v).length,
           [ ⟨b.chain_position, "Hash chain broken", a.current_hash, bad⟩ ]⟩) := by
  constructor
  · intro evs evs' ch; rfl
  · intro u v a b bad hgood hasc hbad evs
    rw [goodChain_append] at hgood
    simp only [Bool.and_eq_true] at hgood
    obtain ⟨hgu, hgr⟩ := hgood
    simp only [goodChain, Bool.and_eq_true, decide_eq_true_eq] at hgr
    obtain ⟨ha, hb, hrest⟩ := hgr
    have hvnil : issuesFrom (⟨b.event_id, bad, b.current_hash, b.chain_position⟩ : ChainLink) v = [] :=
      issuesFrom_nil_of_good v ⟨b.event_id, bad, b.current_hash, b.chain_position⟩ hrest
    have hcv : issuesFrom a ((⟨b.event_id, bad, b.current_hash, b.chain_position⟩ : ChainLink) :: v) =
        [ ⟨b.chain_position, "Hash chain broken", a.current_hash, bad⟩ ] := by
      simp [issuesFrom, hbad, hvnil]
    have hiss : chainIssues (u ++ a :: (⟨b.event_id, bad, b.current_hash, b.chain_position⟩ : ChainLink) :: v) =
        [ ⟨b.chain_position, "Hash chain broken", a.current_hash, bad⟩ ] := by
      cases u with
      | nil => simpa [chainIssues] using hcv
      | cons x xs =>
        have hgxs : goodChain xs (some x.current_hash) = true := by
          simp only [goodChain, Bool.and_eq_true] at hgu
          exact hgu.2
        have hga : goodChain (xs ++ [ a ]) (some x.current_hash) = true := by
          rw [goodChain_append]
          simp only [Bool.and_eq_true]
          refine ⟨hgxs, ?_⟩
          have ha2 : a.previous_hash = tailHashA xs (some x.current_hash) := ha
          simp [goodChain, ha2]
        have hnil1 : issuesFrom x (xs ++ [ a ]) = [] :=
          issuesFrom_nil_of_good (xs ++ [ a ]) x hga
        have hsplit : (x :: xs) ++ a :: (⟨b.event_id, bad, b.current_hash, b.chain_position⟩ : ChainLink) :: v
            = x :: ((xs ++ [ a ]) ++ (⟨b.event_id, bad, b.current_hash, b.chain_position⟩ : ChainLink) :: v) := by
          simp
        rw [hsplit]
        simp only [chainIssues]
        rw [issuesFrom_append, hnil1, lastD_append_single]
        simpa using hcv
    have hsort : sortByPos (u ++ a :: (⟨b.event_id, bad, b.current_hash, b.chain_position⟩ : ChainLink) :: v)
        = u ++ a :: (⟨b.event_id, bad, b.current_hash, b.chain_position⟩ : ChainLink) :: v :=
      sortByPos_sorted_id _ 0 hasc
    rw [verifyProvenanceChain_eq]
    simp only [hsort, hiss]
    simp

/-- Witness for the amended C2 at a concrete two-link chain with a
hand-edited previous_hash on the second link. -/
theorem verify_chain_ignores_event_store_witness :
    verifyProvenanceChain ⟨[], [ ⟨"e1", none, "A", 1⟩, ⟨"e2", some "WRONG", "B", 2⟩ ]⟩ =
      ⟨false, 2, [ ⟨2, "Hash chain broken", "A", some "WRONG"⟩ ]⟩ := by
  have h := verify_chain_ignores_event_store.2 [] []
    ⟨"e1", none, "A", 1⟩ ⟨"e2", some "A", "B", 2⟩ (some "WRONG")
    (by decide) (by decide) (by decide) []
  exact h

/-- Counterexample to C3: a store whose single link sits at position 2:
verifyProvenanceChain reports valid = true with an empty issue list even
though the stored positions are not contiguous from 1, so valid is not
equivalent to (empty issue list AND contiguity). -/
theorem valid_without_contiguity_cex :
    (verifyProvenanceChain gapDb).isValid = true ∧
    (verifyProvenanceChain gapDb).issues = [] ∧
    spec_contiguousB gapDb.chain = false := by decide

/-- C3 as amended: verifyProvenanceChain returns the valid flag and the
issue list with valid = true exactly when the issue list is empty; position
contiguity is not part of the check.  The model is a pure function of the
store, reflecting that the source performs a single SELECT and mutates
nothing. -/
theorem verify_chain_valid_iff_no_issues (db : DBState) :
    (verifyProvenanceChain db).isValid = true ↔
      (verifyProvenanceChain db).issues = [] := by
  rw [verifyProvenanceChain_eq]
  generalize chainIssues (sortByPos db.chain) = l
  cases l <;> simp

/-- C4 evaluation at the failing input: the first attempt writes the event
row and then its chain append fails; the code catches the error and retries
via createUnsignedRecord, writing a second event record under a fresh id
(whose stored reason blames the crypto device, though the signer had
succeeded), appending a chain link for it with the stale cursor, advancing
the cursor, and resolving successfully — instead of treating the chain
append failure as fatal for the single creation attempt and surfacing only
the orphaned event. -/
theorem chain_append_failure_retries_eval :
    isOkE (createProvenanceRecord hConst st0 "motion_detection" "\x7b\x7d"
      sampleImg c4env1 c4env2) = true ∧
    (stepCreate hConst st0 c4call).db.events.map (fun e => e.event_id) =
      [ "evt-1", "evt-2" ] ∧
    (stepCreate hConst st0 c4call).db.chain.map (fun l => l.event_id) = [ "evt-2" ] ∧
    (stepCreate hConst st0 c4call).db.events.map (fun e => e.signature_info) =
      [ .signed "sigbytes" "ECDSA-SHA256" "ATECC608-SLOT0" true,
        .unsigned "Crypto device unavailable" ] ∧
    (stepCreate hConst st0 c4call).lastHash = some "h0" := by decide

end Provenance

namespace Provenance

theorem getLast?_append_single {α : Type} (u : List α) (a : α) :
    (u ++ [ a ]).getLast? = some a := by
  simp

theorem createUnsignedAttempt_roundtrip_aux (H : String → String)
    (st : TrackerState) (etype tdata : String) (img : ImageData)
    (env : CreateEnv) (st' : TrackerState) (res : CreateResult)
    (h : createUnsignedAttempt H st etype tdata img env = .ok (st', res)) :
    st'.db.events.getLast? = some res.record ∧
    ∃ l : ChainLink, st'.db.chain.getLast? = some l ∧
      l.event_id = res.record.event_id ∧
      l.current_hash = calculateEventHash H
        ⟨res.record.event_id, res.record.timestamp, res.record.rtc_timestamp,
         res.record.event_type, res.record.trigger_data, res.record.image_hash,
         l.previous_hash⟩ res.record.signature := by
  by_cases hl : env.logEventOk = true
  · by_cases hc : env.chainAppendOk = true
    · simp only [createUnsignedAttempt, hl, hc, if_true, logEvent,
        addToProvenanceChain, Except.ok.injEq, Prod.mk.injEq] at h
      obtain ⟨hst, hres⟩ := h
      subst hst
      subst hres
      refine ⟨getLast?_append_single _ _, ⟨_, getLast?_append_single _ _, rfl, rfl⟩⟩
    · simp [createUnsignedAttempt, hl, hc] at h
  · simp [createUnsignedAttempt, hl] at h

theorem createSignedAttempt_roundtrip_aux (H : String → String)
    (st : TrackerState) (etype tdata : String) (img : ImageData)
    (env : CreateEnv) (st' : TrackerState) (res : CreateResult)
    (h : createSignedAttempt H st etype tdata img env = .ok (st', res)) :
    st'.db.events.getLast? = some res.record ∧
    ∃ l : ChainLink, st'.db.chain.getLast? = some l ∧
      l.event_id = res.record.event_id ∧
      l.current_hash = calculateEventHash H
        ⟨res.record.event_id, res.record.timestamp, res.record.rtc_timestamp,
         res.record.event_type, res.record.trigger_data, res.record.image_hash,
         l.previous_hash⟩ res.record.signature := by
  cases hsi : env.signOutcome with
  | none => simp [createSignedAttempt, hsi] at h
  | some si =>
    by_cases hl : env.logEventOk = true
    · by_cases hc : env.chainAppendOk = true
      · simp only [createSignedAttempt, hsi, hl, hc, if_true, logEvent,
          addToProvenanceChain, Except.ok.injEq, Prod.mk.injEq] at h
        obtain ⟨hst, hres⟩ := h
        subst hst
        subst hres
        refine ⟨getLast?_append_single _ _, ⟨_, getLast?_append_single _ _, rfl, rfl⟩⟩
      · simp [createSignedAttempt, hsi, hl, hc] at h
    · simp [createSignedAttempt, hsi, hl] at h

/-- C5: for every record and link persisted by a resolving
createProvenanceRecord call — signed path or unsigned fallback — the stored
current_hash is reproduced exactly by recomputing calculateEventHash from
the stored event columns, the link's stored previous_hash, and the stored
signature (or the unsigned marker): the hash is a deterministic pure
function of that stored data. -/
theorem current_hash_roundtrip (H : String → String) (st : TrackerState)
    (etype tdata : String) (img : ImageData) (env1 env2 : CreateEnv)
    (st' : TrackerState) (res : CreateResult)
    (h : createProvenanceRecord H st etype tdata img env1 env2 = .ok (st', res)) :
    st'.db.events.getLast? = some res.record ∧
    ∃ l : ChainLink, st'.db.chain.getLast? = some l ∧
      l.event_id = res.record.event_id ∧
      l.current_hash = calculateEventHash H
        ⟨res.record.event_id, res.record.timestamp, res.record.rtc_timestamp,
         res.record.event_type, res.record.trigger_data, res.record.image_hash,
         l.previous_hash⟩ res.record.signature := by
  unfold createProvenanceRecord at h
  cases hs : createSignedAttempt H st etype tdata img env1 with
  | ok p =>
    rw [hs] at h
    simp only [Except.ok.injEq] at h
    subst h
    exact createSignedAttempt_roundtrip_aux H st etype tdata img env1 st' res hs
  | error st1 =>
    rw [hs] at h
    exact createUnsignedAttempt_roundtrip_aux H st1 etype tdata img env2 st' res h

/-- Witness for C5 at a concrete failure-free creation from the empty
store. -/
theorem current_hash_roundtrip_witness :
    wSt5.db.events.getLast? = some wRes5.record ∧
    ∃ l : ChainLink, wSt5.db.chain.getLast? = some l ∧
      l.event_id = wRes5.record.event_id ∧
      l.current_hash = calculateEventHash hConst
        ⟨wRes5.record.event_id, wRes5.record.timestamp, wRes5.record.rtc_timestamp,
         wRes5.record.event_type, wRes5.record.trigger_data, wRes5.record.image_hash,
         l.previous_hash⟩ wRes5.record.signature :=
  current_hash_roundtrip hConst st0 "motion_detection" "\x7b\x7d" sampleImg
    ⟨"id1", "T1", "R1", some sampleSign, true, true⟩
    ⟨"id1u", "T1u", "R1u", none, true, true⟩ wSt5 wRes5 rfl

/-- C6: verifyEvent resolves to a plain result object in both degenerate
cases, never throwing: a missing event id yields valid = false with the
not-found reason, and an existing event whose signature column is null
yields valid = false with the unsigned reason, echoing the joined row. -/
theorem verify_event_notfound_unsigned (st : TrackerState) (eid : String)
    (inited : Bool) (r : ℚ) :
    (getEventById st.db eid = none →
      verifyEvent st eid inited r = ⟨false, some "Event not found", none, none⟩) ∧
    (∀ row : EventRow, getEventById st.db eid = some row →
      row.record.signature = none →
      verifyEvent st eid inited r = ⟨false, some "Event not signed", some row, none⟩) := by
  constructor
  · intro h
    simp [verifyEvent, h]
  · intro row h hs
    simp [verifyEvent, h, hs]

/-- Witness for C6 on a store holding one unsigned event. -/
theorem verify_event_notfound_unsigned_witness :
    verifyEvent wStU "missing" false 0 = ⟨false, some "Event not found", none, none⟩ ∧
    verifyEvent wStU "e1" false 0 =
      ⟨false, some "Event not signed", some ⟨cexE1, none, none, none⟩, none⟩ :=
  ⟨(verify_event_notfound_unsigned wStU "missing" false 0).1 (by decide),
   (verify_event_notfound_unsigned wStU "e1" false 0).2
     ⟨cexE1, none, none, none⟩ (by decide) rfl⟩

end Provenance

namespace Provenance

/-- Counterexample to C7: a stored hardware-trust signature is dispatched
to the software verification routine whenever the device object is not
initialized, and is accepted by it rather than rejected. -/
theorem hardware_sig_software_routine_cex :
    hwInfo.hardwareTag = true ∧
    selectedRoutine hwInfo false = .software ∧
    verifySignature false "payload" hwInfo 1 = softwareVerify "payload" hwInfo 1 ∧
    verifySignature false "payload" hwInfo 1 = true := by
  refine ⟨rfl, rfl, rfl, ?_⟩
  simp only [verifySignature, selectedRoutine, softwareVerify, decide_eq_true_eq]
  norm_num [hwInfo, SignatureInfo.hardwareTag]

/-- C7 as amended: verifySignature dispatches on the trust tag AND on
device availability: the hardware routine runs exactly when the stored
trust tag is hardware and the device is initialized; a software-trust
signature always goes to the software routine, and a hardware-trust
signature with the device unavailable silently falls through to the
software routine as well — the mismatch is not rejected. -/
theorem verify_routine_dispatch (info : SignatureInfo) (inited : Bool) :
    (selectedRoutine info inited = .hardware ↔
      (info.hardwareTag = true ∧ inited = true)) ∧
    (info.hardwareTag = false → selectedRoutine info inited = .software) ∧
    (info.hardwareTag = true → inited = false →
      selectedRoutine info inited = .software) := by
  cases hinfo : info.hardwareTag <;> cases inited <;>
    simp [selectedRoutine, hinfo]

/-- Witness for the amended C7 at concrete stored signature objects. -/
theorem verify_routine_dispatch_witness :
    selectedRoutine hwInfo false = .software ∧
    selectedRoutine (SignatureInfo.unsigned "no signature") true = .software :=
  ⟨(verify_routine_dispatch hwInfo false).2.2 rfl rfl,
   (verify_routine_dispatch (SignatureInfo.unsigned "no signature") true).2.1 rfl⟩

/-- Counterexample to C8: on a store whose newest event record is orphaned
(no chain link), the start-up read seeds the cursor with null even though
the chain store is nonempty and its highest-position link carries a real
current_hash. -/
theorem cursor_seed_orphan_cex :
    initLastHash orphanDb = none ∧
    orphanDb.chain ≠ [] ∧
    spec_tailHash orphanDb = some "h1" := by decide

theorem find?_or_append {α : Type} (p : α → Bool) (u v : List α) :
    (u ++ v).find? p = ((u.find? p).or (v.find? p)) := by
  induction u with
  | nil => rfl
  | cons x xs ih =>
    by_cases hx : p x = true <;> simp [List.find?_cons, hx, ih]

/-- C8 as amended: initialize seeds the cursor from the newest event record
joined with its chain link, not from the chain store tail; the two agree —
null on an empty store, and the tail current_hash otherwise — whenever the
events and chain tables correspond 1:1 in insertion order with distinct
event ids and ascending positions, as every failure-free history produces;
an orphaned newest event instead seeds null (see the counterexample). -/
theorem cursor_seed_matches_tail (db : DBState)
    (h1 : db.events.map (fun e => e.event_id) = db.chain.map (fun l => l.event_id))
    (h2 : (db.chain.map (fun l => l.event_id)).Nodup)
    (h3 : ascFrom 0 db.chain = true) :
    initLastHash db = spec_tailHash db := by
  have hsort : sortByPos db.chain = db.chain := sortByPos_sorted_id _ 0 h3
  cases hev : db.events.reverse with
  | nil =>
    have hevnil : db.events = [] := by
      simpa using congrArg List.reverse hev
    have hchnil : db.chain = [] := by
      rw [hevnil] at h1
      simpa using h1.symm
    simp [initLastHash, getEvents, spec_tailHash, hevnil, hchnil, hsort, sortByPos]
  | cons e rest =>
    have hevs : db.events = rest.reverse ++ [ e ] := by
      simpa using congrArg List.reverse hev
    cases hcr : db.chain.reverse with
    | nil =>
      have hchnil : db.chain = [] := by
        simpa using congrArg List.reverse hcr
      rw [hevs, hchnil] at h1
      simp at h1
    | cons l cr =>
      have hch : db.chain = cr.reverse ++ [ l ] := by
        simpa using congrArg List.reverse hcr
      have hids : rest.reverse.map (fun x => x.event_id) ++ [ e.event_id ] =
          cr.reverse.map (fun x => x.event_id) ++ [ l.event_id ] := by
        rw [hevs, hch] at h1
        simpa using h1
      have hid : e.event_id = l.event_id := by
        have hlast := congrArg (fun s => s.getLast?) hids
        simp only [getLast?_append_single] at hlast
        exact Option.some.inj hlast
      have hnotin : l.event_id ∉ cr.reverse.map (fun x => x.event_id) := by
        rw [hch] at h2
        rw [List.map_append] at h2
        rw [List.nodup_append] at h2
        have hd := h2.2.2
        intro hmem
        exact hd hmem (by simp)
      have hfind : db.chain.find? (fun x => x.event_id == e.event_id) = some l := by
        rw [hch, find?_or_append]
        have hnone : cr.reverse.find? (fun x => x.event_id == e.event_id) = none := by
          rw [List.find?_eq_none]
          intro x hx hbeq
          apply hnotin
          rw [← hid]
          have hxe : x.event_id = e.event_id := by simpa using hbeq
          rw [← hxe]
          exact List.mem_map_of_mem (fun y => y.event_id) hx
        rw [hnone]
        simp [List.find?_cons, hid.symm]
      have hjoin : initLastHash db = some l.current_hash := by
        simp only [initLastHash, getEvents, hevs, List.drop_zero]
        rw [List.reverse_append]
        simp only [List.reverse_cons, List.reverse_nil, List.nil_append,
          List.singleton_append, List.take_cons, List.take_zero, List.map_cons]
        simp [joinChain, hfind]
      rw [hjoin, spec_tailHash, hsort, hch, getLast?_append_single]
      rfl

/-- Witness for the amended C8 on a concrete well-formed two-event store. -/
theorem cursor_seed_matches_tail_witness :
    initLastHash wDb8 = spec_tailHash wDb8 ∧ spec_tailHash wDb8 = some "B" :=
  ⟨cursor_seed_matches_tail wDb8 (by decide) (by decide) (by decide), by decide⟩

end Provenance

namespace Provenance

/-- C9: a total signer failure still yields a persisted record: the catch
falls into createUnsignedRecord, which stores the event with a null
signature and a signature-metadata object carrying no trust tag, appends
its chain link, and resolves normally to the caller with signed = false —
the failure is not surfaced as an error and does not block event logging. -/
theorem signer_failure_still_records (H : String → String) (st : TrackerState)
    (etype tdata : String) (img : ImageData) (env1 env2 : CreateEnv)
    (h1 : env1.signOutcome = none) (h2 : env2.logEventOk = true)
    (h3 : env2.chainAppendOk = true) :
    ∃ (st' : TrackerState) (r : CreateResult),
      createProvenanceRecord H st etype tdata img env1 env2 = .ok (st', r) ∧
      r.signed = false ∧
      r.record.signature = none ∧
      r.record.signature_info = SignatureInfo.unsigned "Crypto device unavailable" ∧
      st'.db.events = st.db.events ++ [ r.record ] ∧
      st'.db.chain.map (fun l => l.event_id) =
        st.db.chain.map (fun l => l.event_id) ++ [ env2.eventId ] := by
  simp only [createProvenanceRecord, createSignedAttempt, h1]
  simp only [createUnsignedAttempt, h2, h3, if_true, logEvent, addToProvenanceChain]
  refine ⟨_, _, rfl, rfl, rfl, rfl, rfl, by simp⟩

/-- Witness for C9 with a concrete total signer failure from the empty
store, the fallback database writes succeeding. -/
theorem signer_failure_still_records_witness :
    ∃ (st' : TrackerState) (r : CreateResult),
      createProvenanceRecord hConst st0 "manual_capture" "\x7b\x7d" sampleImg
        wEnvF wEnvOk = .ok (st', r) ∧
      r.signed = false ∧
      r.record.signature = none ∧
      r.record.signature_info = SignatureInfo.unsigned "Crypto device unavailable" ∧
      st'.db.events = st0.db.events ++ [ r.record ] ∧
      st'.db.chain.map (fun l => l.event_id) =
        st0.db.chain.map (fun l => l.event_id) ++ [ wEnvOk.eventId ] :=
  signer_failure_still_records hConst st0 "manual_capture" "\x7b\x7d" sampleImg
    wEnvF wEnvOk rfl rfl rfl

/-- C10: verification through the software path is not a deterministic
function of its inputs: with byte-identical data and the same stored
signature object, two calls differing only in the random draw return
different booleans; and the returned boolean is independent of both the
data and the stored signature object, so it says nothing about whether the
signature actually matches the data. -/
theorem software_verify_nondeterministic :
    (∀ (d : String) (si : SignatureInfo),
      verifySignature false d si 1 = true ∧ verifySignature false d si 0 = false) ∧
    (∀ (d1 d2 : String) (si1 si2 : SignatureInfo) (r : ℚ),
      softwareVerify d1 si1 r = softwareVerify d2 si2 r) := by
  constructor
  · intro d si
    constructor
    · simp only [verifySignature, selectedRoutine, Bool.and_false, softwareVerify]
      norm_num
    · simp only [verifySignature, selectedRoutine, Bool.and_false, softwareVerify]
      norm_num
  · intro d1 d2 si1 si2 r
    rfl

end Provenance
